import Mathlib

/-!
# Verification of the usb1608fsplus acquisition pipeline entry points

Shallow embedding of the entry-point programs of the questrail/usb1608fsplus
repository (`src/main.go`, `src/dashboard/main.go`, `src/writedata/main.go`,
and the unnamed entry points `part_000`, `part_001`, `part_002`).

The device-driver collaborator (`github.com/gotmc/mccdaq/usb1608fsplus`) is an
external dependency of this repository; its operations (`StopScan`,
`ClearScanBuffer`, `SetScanRanges`, `ScanRanges`, `StartScan`, `ReadScan`,
`SerialNumber`, `Volts`) are modelled as abstract events and oracles.  The
control flow of each entry point — the order in which device operations are
issued, how read errors and write failures are handled, and what reaches the
sinks — is translated directly from the Go source.
-/

set_option autoImplicit false

namespace Usb1608

/-- One observable event of a `writedata`-style run: a device control
operation, a settle delay (`time.Sleep(millisecondDelay * time.Millisecond)`),
a blocking scan read, the hand-off of an artifact to a persistence goroutine
(`go ioutil.WriteFile(...)`), a log line, or the fatal surfacing of an error
(`log.Fatalf`). -/
inductive Ev where
  | stopScan
  | settle
  | clearScanBuffer
  | setScanRanges
  | readScanRanges
  | startScan
  | readScan (j : Nat)
  | writeHdr (j : Nat) (name : String)
  | logWrite (name : String)
  | writeDat (j : Nat) (name : String) (data : List Nat)
  | closeDevice
  | fatal (msg : String)
  deriving DecidableEq

/-- Final disposition of a run: normal completion (the configured buffer
count was exhausted and the stop sequence ran), or abort via `log.Fatalf`
after a read error. -/
inductive Outcome where
  | stopped
  | failed (msg : String)
  deriving DecidableEq

/-- Header artifact name, from `fmt.Sprintf` with format string
base, underscore, sequence index, `.hdr` (src/writedata/main.go:182). -/
def hdrName (base : String) (j : Nat) : String :=
  base ++ "_" ++ toString j ++ ".hdr"

/-- Data artifact name, from `fmt.Sprintf` with format string
base, underscore, sequence index, `.dat` (src/writedata/main.go:185). -/
def datName (base : String) (j : Nat) : String :=
  base ++ "_" ++ toString j ++ ".dat"

/-- The events of one successful loop iteration of src/writedata/main.go
(lines 168-189): the blocking `ReadScan`, the spawn of the header write
goroutine, the `log.Printf` announcing the data file, and the spawn of the
data write goroutine, in source order. -/
def iterEvs (base : String) (j : Nat) (d : List Nat) : List Ev :=
  [Ev.readScan j, Ev.writeHdr j (hdrName base j),
   Ev.logWrite (datName base j), Ev.writeDat j (datName base j) d]

/-- The events of the read-error branch of src/writedata/main.go
(lines 171-179): the failing `ReadScan`, then `ai.StopScan()`,
`time.Sleep(millisecondDelay)`, `daq.Close()`, and `log.Fatalf`. -/
def failEvs (j : Nat) (e : String) : List Ev :=
  [Ev.readScan j, Ev.stopScan, Ev.settle, Ev.closeDevice, Ev.fatal e]

/-- The events after the loop exhausts its buffer count
(src/writedata/main.go:192-194): `time.Sleep`, `ai.StopScan()`, `time.Sleep`. -/
def tailEvs : List Ev :=
  [Ev.settle, Ev.stopScan, Ev.settle]

/-- The acquisition loop of src/writedata/main.go:168-189, embedded with an
explicit transport oracle (`oracle j` is the result of the `j`-th blocking
`ai.ReadScan` call) and a persistence oracle (`wFail name` is `true` when the
spawned `ioutil.WriteFile` for artifact `name` fails).  The Go code launches
each write with `go` and never inspects its error, so `wFail` influences only
the set of artifacts that end up persisted, never the trace or the outcome.
Returns (event trace, outcome, names of artifacts successfully persisted).
`j` is the loop counter, the fuel argument is `totalBuffers - j`. -/
def scanLoop (oracle : Nat → Except String (List Nat)) (wFail : String → Bool)
    (base : String) : Nat → Nat → List Ev × Outcome × List String
  | _, 0 => (tailEvs, Outcome.stopped, [])
  | j, n + 1 =>
    match oracle j with
    | Except.error e => (failEvs j e, Outcome.failed e, [])
    | Except.ok d =>
      let hn := hdrName base j
      let dn := datName base j
      let rest := scanLoop oracle wFail base (j + 1) n
      (iterEvs base j d ++ rest.1,
       rest.2.1,
       (if wFail hn then [] else [hn]) ++ (if wFail dn then [] else [dn])
         ++ rest.2.2)

/-- The configuration values extracted by src/writedata/main.go from the JSON
document: `scans_per_buffer`, `total_buffers` (Go `int`, so modelled as `Int`)
and the output path whose `path.Base` serves as artifact base name. -/
structure WConfig where
  scansPerBuffer : Int
  totalBuffers : Int
  outputFile : String
  deriving DecidableEq

/-- The device-facing part of src/writedata/main.go from the point the device
handle exists (line 106) to the end of `main`: stop any prior scan, settle,
clear the scan buffer (106-108), decode the config (pure), commit the scan
ranges via `ai.SetScanRanges()` (134), settle and read the ranges back
(161-162), `ai.StartScan(0)` (165), then the acquisition loop and its stop
tail.  `cfg.outputFile` is used as the artifact base name (the `path.Base`
call is modelled as the identity, which it is for slash-free names). -/
def writedataRun (cfg : WConfig) (oracle : Nat → Except String (List Nat))
    (wFail : String → Bool) : List Ev × Outcome × List String :=
  let lp := scanLoop oracle wFail cfg.outputFile 0 cfg.totalBuffers.toNat
  ([Ev.stopScan, Ev.settle, Ev.clearScanBuffer, Ev.setScanRanges,
    Ev.settle, Ev.readScanRanges, Ev.startScan] ++ lp.1,
   lp.2.1, lp.2.2)

/-- `true` exactly on `readScan` events. -/
def isReadScan : Ev → Bool
  | Ev.readScan _ => true
  | _ => false

/-- `true` exactly on `writeDat` events (data-buffer hand-off to the
persistence sink). -/
def isWriteDat : Ev → Bool
  | Ev.writeDat _ _ _ => true
  | _ => false

/-- `true` exactly on `startScan` events. -/
def isStartScan : Ev → Bool
  | Ev.startScan => true
  | _ => false

/-- The artifact names of buffer `j` that survive the persistence oracle
`wFail`: the header name and the data name, each kept exactly when its
spawned write succeeds. -/
def persistPair (wFail : String → Bool) (base : String) (j : Nat) : List String :=
  (if wFail (hdrName base j) then [] else [hdrName base j])
    ++ (if wFail (datName base j) then [] else [datName base j])

/-- Projection of a trace event onto the read/sink hand-off alphabet:
`rd j` for the blocking read of buffer `j`, `hd j` / `dt j` for the hand-off
of buffer `j`'s header / data artifact to its persistence goroutine. -/
inductive SEv where
  | rd (j : Nat)
  | hd (j : Nat)
  | dt (j : Nat)
  deriving DecidableEq

/-- Keep only read and sink hand-off events, with their sequence index. -/
def sinkView : Ev → Option SEv
  | Ev.readScan j => some (SEv.rd j)
  | Ev.writeHdr j _ => some (SEv.hd j)
  | Ev.writeDat j _ _ => some (SEv.dt j)
  | _ => none

/-- The six control operations src/writedata/main.go issues between acquiring
the analog input and `ai.StartScan(0)`: `ai.StopScan()` (line 106),
`time.Sleep` (107), `ai.ClearScanBuffer()` (108), `ai.SetScanRanges()` (134),
`time.Sleep` (161), `ai.ScanRanges()` (162). -/
def armSeq : List Ev :=
  [Ev.stopScan, Ev.settle, Ev.clearScanBuffer, Ev.setScanRanges,
   Ev.settle, Ev.readScanRanges]

/-- The fields of the writedata configuration document that drive the run:
`scans_per_buffer`, `total_buffers`, `output_file`.  `none` models an absent
JSON field; Go's `encoding/json` leaves the zero value in place for absent
fields and only fails on malformed documents, so decoding never rejects an
absent or non-positive count. -/
structure ConfigDoc where
  scansPerBuffer : Option Int
  totalBuffers : Option Int
  outputFile : Option String
  deriving DecidableEq

/-- The decode step of src/writedata/main.go:119-133: each recognized field
is taken from the document if present, otherwise keeps its Go zero value
(`0` for the counts, the empty string for the path).  No validation of any
kind is performed on the decoded values. -/
def decodeWritedata (doc : ConfigDoc) : WConfig :=
  { scansPerBuffer := doc.scansPerBuffer.getD 0,
    totalBuffers := doc.totalBuffers.getD 0,
    outputFile := doc.outputFile.getD "" }

/-- src/writedata/main.go from configuration document to final state:
decode (no validation), then the device sequence and acquisition loop. -/
def writedataMain (doc : ConfigDoc) (oracle : Nat → Except String (List Nat))
    (wFail : String → Bool) : List Ev × Outcome × List String :=
  writedataRun (decodeWritedata doc) oracle wFail

/-- Conversion errors of the §4.1 calibration contract: `rangeErr` when the
range selector is outside the supported table, `decodeErr` when the byte
slice for a channel is not exactly 2 bytes. -/
inductive VoltErr where
  | rangeErr
  | decodeErr
  deriving DecidableEq

/-- Per-range calibration coefficients (slope, intercept), read from device
calibration memory at startup. -/
structure Cal where
  slope : Rat
  intercept : Rat
  deriving DecidableEq

/-- Little-endian 16-bit decode of the first two bytes, as
`binary.LittleEndian.Uint16` does in src/dashboard/main.go:172. -/
def word16 (bytes : List Nat) : Nat :=
  bytes.getD 0 0 + 256 * bytes.getD 1 0

/-- Modelled from the spec: the driver's `Channel.Volts` conversion lives in
the external `gotmc/mccdaq/usb1608fsplus` driver package, not under src/.
§4.1 gives its contract: `voltage = rawCode × scaleFor(range) +
offsetFor(range)` with coefficients from the calibration table `cal`;
`DecodeError` if the byte slice is not exactly 2 bytes, `RangeError` if the
range selector is outside the supported enum (here: outside the table). -/
def voltsOf (cal : Nat → Option Cal) (bytes : List Nat) (range : Nat) :
    Except VoltErr Rat :=
  if bytes.length = 2 then
    match cal range with
    | some c => Except.ok ((word16 bytes : Rat) * c.slope + c.intercept)
    | none => Except.error VoltErr.rangeErr
  else Except.error VoltErr.decodeErr

/-- One channel of the dashboard's channel list (`ai.Channels`): description,
enabled flag, and voltage-range selector. -/
structure DChannel where
  description : String
  enabled : Bool
  range : Nat
  deriving DecidableEq

/-- Fallback channel for out-of-range indexing (the driver's `Channels` field
is a fixed 8-element array, so indices 0..5 are always in bounds there). -/
def dChanDefault : DChannel := { description := "", enabled := false, range := 0 }

deriving instance DecidableEq for Except

/-- One line of the dashboard's textual snapshot for a display slot: the
channel description, the raw 16-bit code, and the conversion result (the Go
code renders these into a format string; the embedding keeps the structured
content). -/
structure LVEntry where
  desc : String
  encoded : Nat
  result : Except VoltErr Rat
  deriving DecidableEq

/-- Go slice expression `data[lo:hi]`: panics (here: errors) when the upper
bound exceeds the slice length, as in src/dashboard/main.go:171. -/
def goSlice (data : List Nat) (lo hi : Nat) : Except String (List Nat) :=
  if hi ≤ data.length then Except.ok ((data.drop lo).take (hi - lo))
  else Except.error "slice bounds out of range"

/-- The inner display loop of src/dashboard/main.go:167-180 over the given
display slots: for slot `i`, slice `data[2*i : 2*i+2]` (a panic aborts the
iteration — and the process — at the first out-of-bounds slice), look up
`ai.Channels[i]`, decode the 16-bit code and convert with that channel's
range. -/
def liveViewGo (cal : Nat → Option Cal) (channels : List DChannel)
    (data : List Nat) : List Nat → Except String (List LVEntry)
  | [] => Except.ok []
  | i :: rest =>
    match goSlice data (2 * i) (2 * i + 2) with
    | Except.error e => Except.error e
    | Except.ok bytes =>
      match liveViewGo cal channels data rest with
      | Except.error e => Except.error e
      | Except.ok tl =>
        let ch := channels.getD i dChanDefault
        Except.ok ({ desc := ch.description, encoded := word16 bytes,
                     result := voltsOf cal bytes ch.range } :: tl)

/-- The Live View Sink of src/dashboard/main.go:166-180 (`wordsToShow := 6`):
the six display slots are the fixed indices 0..5. -/
def liveView (cal : Nat → Option Cal) (channels : List DChannel)
    (data : List Nat) : Except String (List LVEntry) :=
  liveViewGo cal channels data [0, 1, 2, 3, 4, 5]

/-- Entry `k` of the spec-described live view: the first sample of the `k`-th
enabled channel — word `k` of the buffer under the channel-major interleave
of §3 — converted with that channel's own range. -/
def specEntry (cal : Nat → Option Cal) (data : List Nat) (k : Nat)
    (ch : DChannel) : LVEntry :=
  { desc := ch.description,
    encoded := word16 ((data.drop (2 * k)).take 2),
    result := voltsOf cal ((data.drop (2 * k)).take 2) ch.range }

/-- Helper for `specLiveView`: entries for the channel list `chs` starting at
display position `k`. -/
def specEntries (cal : Nat → Option Cal) (data : List Nat) :
    Nat → List DChannel → List LVEntry
  | _, [] => []
  | k, ch :: rest => specEntry cal data k ch :: specEntries cal data (k + 1) rest

/-- Modelled from the spec: the Live View Sink contract of §4.5 — extract
the first sample of each of the first 6 enabled channels, convert via §4.1,
and produce the textual snapshot from those values. -/
def specLiveView (cal : Nat → Option Cal) (channels : List DChannel)
    (data : List Nat) : List LVEntry :=
  specEntries cal data 0 ((channels.filter fun c => c.enabled).take 6)

/-- `true` when an `Except` value is `ok`. -/
def exceptIsOk {ε α : Type} : Except ε α → Bool
  | Except.ok _ => true
  | Except.error _ => false

/-- The serial-number display of the dashboard entry points
(src/dashboard/main.go:87-91 and src/unnamed/part_000:66-70): the read result
is modelled as the returned string plus a success flag; on failure the
displayed string is replaced by the placeholder.  Neither branch aborts, so
the result is always `some` (a fatal exit would be `none`). -/
def serialShownDashboard (r : String × Bool) : Option String :=
  some (if r.2 then r.1 else "Unknown")

/-- The serial-number display of src/main.go:36-37 and
src/unnamed/part_001:43-44 (also part_000's second program, line 206-207):
the error return is discarded and the returned string is printed unchanged.
No branch aborts, so the result is always `some`. -/
def serialShownMain (r : String × Bool) : Option String :=
  some r.1

/-- `getRTCTime` of src/unnamed/part_002:358-365, as the list of values sent
on its result channel: the hwclock invocation is modelled as (captured
output, success flag).  On failure it sends the placeholder and then — the
send being outside any `else` — unconditionally sends the captured output as
well; on success it sends only the output. -/
def getRTCTimeSends (r : String × Bool) : List String :=
  if r.2 then [r.1] else ["bad hwclock call", r.1]

/-- Events of the multi-file recorder's outer loop (src/unnamed/part_002,
second program, lines 319-350): RTC goroutine spawn, scan reads, the single
channel receive per file, artifact hand-offs, and the stop/fail operations. -/
inductive MEv where
  | mSpawn (f : Nat)
  | mRecv (f : Nat)
  | mRead (f b : Nat)
  | mWriteHdr (f : Nat)
  | mWriteDat (f : Nat)
  | mStop
  | mSettle
  | mClose
  | mFatal (msg : String)
  deriving DecidableEq

/-- The inner buffer loop of one file (src/unnamed/part_002:324-336): reads
`buffersPerFile` buffers, appending the data; a read error triggers the
stop/settle/close/fatal sequence.  Returns the events and whether the loop
completed.  `b` is the buffer counter within the file, the fuel is
`buffersPerFile - b`. -/
def mfInner (oracle : Nat → Nat → Except String (List Nat)) (f : Nat) :
    Nat → Nat → List MEv × Bool
  | _, 0 => ([], true)
  | b, n + 1 =>
    match oracle f b with
    | Except.error e => ([MEv.mRead f b, MEv.mStop, MEv.mSettle, MEv.mClose,
                          MEv.mFatal e], false)
    | Except.ok _ =>
      let rest := mfInner oracle f (b + 1) n
      (MEv.mRead f b :: rest.1, rest.2)

/-- The outer file loop of the multi-file recorder
(src/unnamed/part_002:319-350): per file, spawn `getRTCTime` on the shared
channel, run the inner buffer loop, then perform exactly one channel receive
and hand off the two artifacts; after the last file, the stop tail
(lines 353-355).  `f` is the file counter, the fuel is `numFiles - f`. -/
def mfOuter (oracle : Nat → Nat → Except String (List Nat)) (bpf : Nat) :
    Nat → Nat → List MEv
  | _, 0 => [MEv.mSettle, MEv.mStop, MEv.mSettle]
  | f, n + 1 =>
    let inner := mfInner oracle f 0 bpf
    if inner.2 then
      MEv.mSpawn f :: inner.1
        ++ [MEv.mRecv f, MEv.mWriteHdr f, MEv.mWriteDat f]
        ++ mfOuter oracle bpf (f + 1) n
    else
      MEv.mSpawn f :: inner.1

/-- The multi-file recorder run: `numFiles` outer iterations from file 0. -/
def mfRun (oracle : Nat → Nat → Except String (List Nat)) (bpf numFiles : Nat) :
    List MEv :=
  mfOuter oracle bpf 0 numFiles

/-- `true` exactly on RTC channel receives. -/
def isMRecv : MEv → Bool
  | MEv.mRecv _ => true
  | _ => false

/-- `true` exactly on RTC goroutine spawns. -/
def isMSpawn : MEv → Bool
  | MEv.mSpawn _ => true
  | _ => false

/-- Total number of channel sends performed by the `numFiles` spawned
`getRTCTime` goroutines, for hwclock outcomes `hw`. -/
def rtcSendTotal (hw : Nat → String × Bool) (numFiles : Nat) : Nat :=
  ((List.range numFiles).map fun f => (getRTCTimeSends (hw f)).length).sum

/-- The data artifacts handed to the persistence sink, as (name, byte count)
in trace order. -/
def datFiles (tr : List Ev) : List (String × Nat) :=
  tr.filterMap fun ev => match ev with
    | Ev.writeDat _ name data => some (name, data.length)
    | _ => none

/-- The header artifacts handed to the persistence sink, in trace order. -/
def hdrFiles (tr : List Ev) : List String :=
  tr.filterMap fun ev => match ev with
    | Ev.writeHdr _ name => some name
    | _ => none

/-- A persistence oracle under which every write succeeds. -/
def noWFail : String → Bool := fun _ => false

/-- Transport oracle that succeeds twice and then fails. -/
def oracleW1 : Nat → Except String (List Nat) :=
  fun i => if i < 2 then Except.ok [7] else Except.error "boom"

/-- Transport oracle that always succeeds with a 2-byte buffer. -/
def oracleW2 : Nat → Except String (List Nat) :=
  fun _ => Except.ok [3, 1]

/-- Transport oracle for the §8 scenario: every read returns 512 bytes
(256 scans × 1 enabled channel × 2 bytes). -/
def oracle512 : Nat → Except String (List Nat) :=
  fun _ => Except.ok (List.replicate 512 0)

/-- The §8 scenario configuration: 256 scans per buffer, 10 total buffers,
base name `data` (rate 20000 Hz, channel 0 at ±10V live in the device-side
`analog_input` config and do not alter the entry point's control flow). -/
def cfgC5 : WConfig := { scansPerBuffer := 256, totalBuffers := 10, outputFile := "data" }

/-- A persistence oracle failing exactly the data artifact of buffer 1. -/
def wFailC3 : String → Bool := fun n => n == "out_1.dat"

/-- A transport oracle that would fail any read; used for runs that must not
read at all. -/
def errOracle : Nat → Except String (List Nat) :=
  fun _ => Except.error "unreachable"

/-- Calibration table with two supported ranges and distinct coefficients:
range 0 is identity, range 1 scales by 2 and offsets by 5. -/
def calTwo : Nat → Option Cal :=
  fun r => if r = 0 then some { slope := 1, intercept := 0 }
    else if r = 1 then some { slope := 2, intercept := 5 }
    else none

/-- Eight channels of which only channel 0 is enabled; channel 1 is disabled
and configured with a different range. -/
def chansOneEnabled : List DChannel :=
  [ { description := "ch0", enabled := true, range := 0 },
    { description := "ch1", enabled := false, range := 1 },
    { description := "ch2", enabled := false, range := 0 },
    { description := "ch3", enabled := false, range := 0 },
    { description := "ch4", enabled := false, range := 0 },
    { description := "ch5", enabled := false, range := 0 },
    { description := "ch6", enabled := false, range := 0 },
    { description := "ch7", enabled := false, range := 0 } ]

/-- A 12-byte buffer: one enabled channel, six scans, samples 1..6. -/
def dataSixWords : List Nat := [1, 0, 2, 0, 3, 0, 4, 0, 5, 0, 6, 0]

/-- A 4-byte buffer: exactly `scansPerBuffer = 2` × 1 enabled channel ×
2 bytes, satisfying the §3 length invariant. -/
def dataFourBytes : List Nat := [0, 0, 0, 0]

/-- A 13-byte buffer: violates the §3 length invariant for every
(scans, channels) pair, since valid lengths are even. -/
def dataThirteen : List Nat := [0, 0, 0, 0, 0, 0, 0, 0, 0, 0, 0, 0, 0]

/-- Multi-file transport oracle that always succeeds. -/
def mfOracleOk : Nat → Nat → Except String (List Nat) :=
  fun _ _ => Except.ok [0, 0]

/-- hwclock outcomes where the first invocation fails and the rest succeed. -/
def hwFirstFails : Nat → String × Bool :=
  fun f => if f = 0 then ("", false) else ("clock", true)

/-- Eight channels with the first six enabled (assorted ranges), as in a
dashboard configuration that displays channels 0-5. -/
def chansAllEnabled : List DChannel :=
  [ { description := "c0", enabled := true, range := 0 },
    { description := "c1", enabled := true, range := 1 },
    { description := "c2", enabled := true, range := 0 },
    { description := "c3", enabled := true, range := 0 },
    { description := "c4", enabled := true, range := 1 },
    { description := "c5", enabled := true, range := 0 },
    { description := "c6", enabled := false, range := 0 },
    { description := "c7", enabled := true, range := 0 } ]

/-- Characterization of the acquisition loop when every read it issues
succeeds: the trace is the concatenation of the per-iteration event blocks
for loop indices `j, j+1, ..., j+n-1` followed by the stop tail, the outcome
is `stopped`, and the persisted set is the concatenation of the surviving
artifact names. -/
theorem scanLoop_ok_eq (oracle : Nat → Except String (List Nat))
    (wFail : String → Bool) (base : String) (d : Nat → List Nat) :
    ∀ n j, (∀ i, i ∈ List.range' j n → oracle i = Except.ok (d i)) →
      scanLoop oracle wFail base j n =
        (((List.range' j n).map fun i => iterEvs base i (d i)).flatten
            ++ tailEvs,
         Outcome.stopped,
         ((List.range' j n).map fun i => persistPair wFail base i).flatten) := by
  intro n
  induction n with
  | zero => intro j _; simp [scanLoop]
  | succ m ih =>
    intro j h
    have h0 : oracle j = Except.ok (d j) := by
      apply h
      rw [List.range'_succ]
      exact List.mem_cons_self j _
    have hrec := ih (j + 1) (fun i hi => by
      apply h
      rw [List.range'_succ]
      exact List.mem_cons_of_mem j hi)
    rw [List.range'_succ]
    simp only [scanLoop, h0, hrec, List.map_cons, List.flatten_cons]
    simp [persistPair, iterEvs, List.append_assoc]

/-- Characterization of the acquisition loop when the read at loop index
`j + k` fails after `k` successful reads: the trace is the `k` per-iteration
blocks followed by the fail sequence (failing read, stop-scan, settle, device
close, fatal), the outcome is `failed`, and only the first `k` buffers'
artifacts were handed to the persistence sink. -/
theorem scanLoop_err_eq (oracle : Nat → Except String (List Nat))
    (wFail : String → Bool) (base : String) (d : Nat → List Nat) (e : String) :
    ∀ k j n, k < n → (∀ i, i ∈ List.range' j k → oracle i = Except.ok (d i)) →
      oracle (j + k) = Except.error e →
      scanLoop oracle wFail base j n =
        (((List.range' j k).map fun i => iterEvs base i (d i)).flatten
            ++ failEvs (j + k) e,
         Outcome.failed e,
         ((List.range' j k).map fun i => persistPair wFail base i).flatten) := by
  intro k
  induction k with
  | zero =>
    intro j n hn _ herr
    match n, hn with
    | n + 1, _ =>
      simp only [Nat.add_zero] at herr
      simp [scanLoop, herr]
  | succ m ih =>
    intro j n hn h herr
    match n, hn with
    | n + 1, hn =>
      have h0 : oracle j = Except.ok (d j) := by
        apply h
        rw [List.range'_succ]
        exact List.mem_cons_self j _
      have hrec := ih (j + 1) n (by omega)
        (fun i hi => by
          apply h
          rw [List.range'_succ]
          exact List.mem_cons_of_mem j hi)
        (by rw [show j + 1 + m = j + (m + 1) from by omega]; exact herr)
      rw [List.range'_succ]
      simp only [scanLoop, h0, hrec, List.map_cons, List.flatten_cons]
      rw [show j + 1 + m = j + (m + 1) from by omega]
      simp [persistPair, iterEvs, List.append_assoc]

/-- Counting matches across a flatten of mapped blocks with a constant
per-block count. -/
theorem countP_flatten_map {α : Type} (p : α → Bool) (F : Nat → List α) (c : Nat)
    (hc : ∀ i, (F i).countP p = c) :
    ∀ l : List Nat, ((l.map F).flatten.countP p) = l.length * c := by
  intro l
  induction l with
  | nil => simp
  | cons h t ih =>
    simp [List.countP_append, hc, ih]
    ring

/-- `filterMap` distributes over `flatten`. -/
theorem filterMap_flatten_eq {α β : Type} (g : α → Option β) (L : List (List α)) :
    L.flatten.filterMap g = (L.map (List.filterMap g)).flatten := by
  induction L with
  | nil => rfl
  | cons h t ih => simp [List.filterMap_append, ih]

/-- The acquisition loop never issues `StartScan`: the single start-scan of a
run is the one before the loop. -/
theorem scanLoop_no_start (oracle : Nat → Except String (List Nat))
    (wFail : String → Bool) (base : String) :
    ∀ n j, (scanLoop oracle wFail base j n).1.countP isStartScan = 0 := by
  intro n
  induction n with
  | zero => intro j; rfl
  | succ m ih =>
    intro j
    cases horacle : oracle j with
    | error e => simp [scanLoop, horacle, failEvs, isStartScan, List.countP_cons]
    | ok dd =>
      simp [scanLoop, horacle, iterEvs, isStartScan, List.countP_cons,
        List.countP_append, ih]

/-- C1: if the blocking scan read fails at buffer index `k` (with `k` below
the configured total), then exactly `k` buffers were handed to the
persistence sinks, exactly `k + 1` reads were issued (none after the failing
one), the trace ends with the failing read followed by stop-scan, settle
delay and device close, and only then is the read error surfaced
(`Outcome.failed`). -/
theorem readError_cleanShutdown (cfg : WConfig)
    (oracle : Nat → Except String (List Nat)) (wFail : String → Bool)
    (d : Nat → List Nat) (e : String) (k : Nat)
    (hk : k < cfg.totalBuffers.toNat)
    (hok : ∀ i, i < k → oracle i = Except.ok (d i))
    (herr : oracle k = Except.error e) :
    (writedataRun cfg oracle wFail).1.countP isWriteDat = k ∧
    (writedataRun cfg oracle wFail).1.countP isReadScan = k + 1 ∧
    (∀ j, Ev.readScan j ∈ (writedataRun cfg oracle wFail).1 → j ≤ k) ∧
    (∃ pre, (writedataRun cfg oracle wFail).1
        = pre ++ [Ev.readScan k, Ev.stopScan, Ev.settle, Ev.closeDevice,
                  Ev.fatal e]) ∧
    (writedataRun cfg oracle wFail).2.1 = Outcome.failed e := by
  have hok' : ∀ i, i ∈ List.range' 0 k → oracle i = Except.ok (d i) := by
    intro i hi
    have hmem := List.mem_range'_1.mp hi
    exact hok i (by omega)
  have hsl := scanLoop_err_eq oracle wFail cfg.outputFile d e k 0
    cfg.totalBuffers.toNat hk hok' (by simpa using herr)
  have htr : (writedataRun cfg oracle wFail).1
      = (armSeq ++ [Ev.startScan]
          ++ ((List.range' 0 k).map fun i =>
                iterEvs cfg.outputFile i (d i)).flatten)
        ++ failEvs k e := by
    simp [writedataRun, hsl, armSeq, failEvs]
  have hdatIter : ∀ i, (iterEvs cfg.outputFile i (d i)).countP isWriteDat = 1 := by
    intro i
    simp [iterEvs, isWriteDat, List.countP_cons]
  have hreadIter : ∀ i, (iterEvs cfg.outputFile i (d i)).countP isReadScan = 1 := by
    intro i
    simp [iterEvs, isReadScan, List.countP_cons]
  refine ⟨?_, ?_, ?_, ?_, ?_⟩
  · rw [htr]
    simp [List.countP_append, armSeq, failEvs, isWriteDat, List.countP_cons,
      countP_flatten_map isWriteDat _ 1 hdatIter, List.length_range']
  · rw [htr]
    simp [List.countP_append, armSeq, failEvs, isReadScan, List.countP_cons,
      countP_flatten_map isReadScan _ 1 hreadIter, List.length_range']
  · intro j hj
    rw [htr] at hj
    rcases List.mem_append.mp hj with hj1 | hj2
    · rcases List.mem_append.mp hj1 with hj3 | hj4
      · rcases List.mem_append.mp hj3 with hj5 | hj6
        · simp [armSeq] at hj5
        · simp at hj6
      · rcases List.mem_flatten.mp hj4 with ⟨l, hl, hjl⟩
        rcases List.mem_map.mp hl with ⟨i, hi, rfl⟩
        have hmem := List.mem_range'_1.mp hi
        have hji : j = i := by simpa [iterEvs] using hjl
        omega
    · have hjk : j = k := by simpa [failEvs] using hj2
      omega
  · exact ⟨_, htr⟩
  · simp [writedataRun, hsl]

/-- C2: in a run where every issued read succeeds, the projection of the
trace onto reads and sink hand-offs is exactly, in order:
read 0, header hand-off 0, data hand-off 0, read 1, header 1, data 1, ... —
buffers reach the sinks in strictly increasing sequence order starting at 0,
no index is skipped or repeated, and read `j+1` is only issued after buffer
`j` has been offered to both sink artifacts; the run ends `stopped`. -/
theorem orderedDelivery (cfg : WConfig)
    (oracle : Nat → Except String (List Nat)) (wFail : String → Bool)
    (d : Nat → List Nat)
    (hok : ∀ i, i < cfg.totalBuffers.toNat → oracle i = Except.ok (d i)) :
    (writedataRun cfg oracle wFail).1.filterMap sinkView
      = ((List.range cfg.totalBuffers.toNat).map fun j =>
          [SEv.rd j, SEv.hd j, SEv.dt j]).flatten ∧
    (writedataRun cfg oracle wFail).2.1 = Outcome.stopped := by
  have hok' : ∀ i, i ∈ List.range' 0 cfg.totalBuffers.toNat →
      oracle i = Except.ok (d i) := by
    intro i hi
    have hmem := List.mem_range'_1.mp hi
    exact hok i (by omega)
  have hsl := scanLoop_ok_eq oracle wFail cfg.outputFile d
    cfg.totalBuffers.toNat 0 hok'
  have hpt : ∀ i, (iterEvs cfg.outputFile i (d i)).filterMap sinkView
      = [SEv.rd i, SEv.hd i, SEv.dt i] := by
    intro i
    simp [iterEvs, sinkView, List.filterMap_cons]
  constructor
  · have htr : (writedataRun cfg oracle wFail).1
        = (armSeq ++ [Ev.startScan]
            ++ ((List.range' 0 cfg.totalBuffers.toNat).map fun i =>
                  iterEvs cfg.outputFile i (d i)).flatten) ++ tailEvs := by
      simp [writedataRun, hsl, armSeq, tailEvs]
    rw [htr, List.range_eq_range']
    simp only [List.filterMap_append, filterMap_flatten_eq, List.map_map]
    have hmapeq : List.map (List.filterMap sinkView ∘ fun i =>
          iterEvs cfg.outputFile i (d i)) (List.range' 0 cfg.totalBuffers.toNat)
        = List.map (fun j => [SEv.rd j, SEv.hd j, SEv.dt j])
            (List.range' 0 cfg.totalBuffers.toNat) := by
      apply List.map_congr_left
      intro i _
      simpa [Function.comp] using hpt i
    rw [hmapeq]
    simp [armSeq, tailEvs, sinkView, List.filterMap_cons]
  · simp [writedataRun, hsl]

/-- C8: every run executes the arming sequence — stop any prior scan, settle
delay, clear the device scan buffer, commit the scan ranges, second settle
delay — in this order before the single `StartScan`, and no buffer read is
issued before the scan-range commit (the first seven trace entries contain
no read, and the loop after `StartScan` contains no further start). -/
theorem armingBeforeStart (cfg : WConfig)
    (oracle : Nat → Except String (List Nat)) (wFail : String → Bool) :
    ∃ rest, (writedataRun cfg oracle wFail).1
        = armSeq ++ Ev.startScan :: rest ∧
      armSeq.countP isStartScan = 0 ∧
      rest.countP isStartScan = 0 ∧
      armSeq.countP isReadScan = 0 := by
  refine ⟨(scanLoop oracle wFail cfg.outputFile 0 cfg.totalBuffers.toNat).1,
    ?_, by decide, scanLoop_no_start oracle wFail cfg.outputFile _ 0, by decide⟩
  simp [writedataRun, armSeq]

/-- Witness for `readError_cleanShutdown`: a 5-buffer run whose transport
fails at read 2 delivers exactly 2 buffers, issues 3 reads, and shuts down
before surfacing the error. -/
theorem readError_cleanShutdown_witness :
    (writedataRun ⟨256, 5, "out"⟩ oracleW1 noWFail).1.countP isWriteDat = 2 ∧
    (writedataRun ⟨256, 5, "out"⟩ oracleW1 noWFail).1.countP isReadScan = 2 + 1 ∧
    (∀ j, Ev.readScan j ∈ (writedataRun ⟨256, 5, "out"⟩ oracleW1 noWFail).1 →
      j ≤ 2) ∧
    (∃ pre, (writedataRun ⟨256, 5, "out"⟩ oracleW1 noWFail).1
        = pre ++ [Ev.readScan 2, Ev.stopScan, Ev.settle, Ev.closeDevice,
                  Ev.fatal "boom"]) ∧
    (writedataRun ⟨256, 5, "out"⟩ oracleW1 noWFail).2.1
      = Outcome.failed "boom" :=
  readError_cleanShutdown ⟨256, 5, "out"⟩ oracleW1 noWFail (fun _ => [7])
    "boom" 2 (by decide) (by decide) (by decide)

/-- Witness for `orderedDelivery`: a 3-buffer run with an always-succeeding
transport delivers reads and hand-offs in the order
rd 0, hd 0, dt 0, rd 1, hd 1, dt 1, rd 2, hd 2, dt 2 and stops. -/
theorem orderedDelivery_witness :
    (writedataRun ⟨8, 3, "run"⟩ oracleW2 noWFail).1.filterMap sinkView
      = ((List.range (Int.toNat 3)).map fun j =>
          [SEv.rd j, SEv.hd j, SEv.dt j]).flatten ∧
    (writedataRun ⟨8, 3, "run"⟩ oracleW2 noWFail).2.1 = Outcome.stopped :=
  orderedDelivery ⟨8, 3, "run"⟩ oracleW2 noWFail (fun _ => [3, 1])
    (fun _ _ => rfl)

set_option maxRecDepth 40000 in
/-- C5: the §8 scenario — 256 scans per buffer over one enabled channel,
10 total buffers, transport returning 512 bytes per read — yields exactly
10 data artifacts of 512 bytes named data_0.dat .. data_9.dat, the matching
10 headers data_0.hdr .. data_9.hdr, and a run that issues stop-scan at the
end and finishes in the stopped state. -/
theorem scenario256x10 :
    (writedataRun cfgC5 oracle512 noWFail).2.1 = Outcome.stopped ∧
    datFiles (writedataRun cfgC5 oracle512 noWFail).1
      = [("data_0.dat", 512), ("data_1.dat", 512), ("data_2.dat", 512),
         ("data_3.dat", 512), ("data_4.dat", 512), ("data_5.dat", 512),
         ("data_6.dat", 512), ("data_7.dat", 512), ("data_8.dat", 512),
         ("data_9.dat", 512)] ∧
    hdrFiles (writedataRun cfgC5 oracle512 noWFail).1
      = ["data_0.hdr", "data_1.hdr", "data_2.hdr", "data_3.hdr",
         "data_4.hdr", "data_5.hdr", "data_6.hdr", "data_7.hdr",
         "data_8.hdr", "data_9.hdr"] ∧
    (writedataRun cfgC5 oracle512 noWFail).1.reverse.take 3
      = [Ev.settle, Ev.stopScan, Ev.settle] := by
  decide

/-- The persistence oracle never influences the trace or the outcome of the
acquisition loop — the spawned writes' errors are discarded — and the
persisted artifacts are exactly those whose writes succeed. -/
theorem scanLoop_wfail (oracle : Nat → Except String (List Nat))
    (wFail : String → Bool) (base : String) :
    ∀ n j,
      (scanLoop oracle wFail base j n).1
        = (scanLoop oracle noWFail base j n).1 ∧
      (scanLoop oracle wFail base j n).2.1
        = (scanLoop oracle noWFail base j n).2.1 ∧
      (scanLoop oracle wFail base j n).2.2
        = ((scanLoop oracle noWFail base j n).2.2).filter fun s => !(wFail s) := by
  intro n
  induction n with
  | zero => intro j; simp [scanLoop]
  | succ m ih =>
    intro j
    cases horacle : oracle j with
    | error e => simp [scanLoop, horacle]
    | ok dd =>
      have ihj := ih (j + 1)
      refine ⟨?_, ?_, ?_⟩
      · simp [scanLoop, horacle, ihj.1]
      · simp [scanLoop, horacle, ihj.2.1]
      · simp only [scanLoop, horacle, noWFail, Bool.false_eq_true, if_false,
          List.filter_append, ihj.2.2]
        cases hw : wFail (hdrName base j) <;>
          cases hd : wFail (datName base j) <;>
            simp [hw, hd, List.filter_cons]

/-- C3 (amended): a failed persistence write is silently discarded — the
run's observable trace (including every log event) and its outcome are
identical to those of a run in which every write succeeds; the persisted
artifacts are exactly the ones whose writes succeed, so a failed write loses
exactly that artifact and every other buffer is still read and recorded. -/
theorem writeFailureSilent (cfg : WConfig)
    (oracle : Nat → Except String (List Nat)) (wFail : String → Bool) :
    (writedataRun cfg oracle wFail).1 = (writedataRun cfg oracle noWFail).1 ∧
    (writedataRun cfg oracle wFail).2.1
      = (writedataRun cfg oracle noWFail).2.1 ∧
    (writedataRun cfg oracle wFail).2.2
      = ((writedataRun cfg oracle noWFail).2.2).filter fun n => !(wFail n) := by
  have h := scanLoop_wfail oracle wFail cfg.outputFile
    cfg.totalBuffers.toNat 0
  exact ⟨by simp [writedataRun, h.1], by simp [writedataRun, h.2.1],
    by simp [writedataRun, h.2.2]⟩

/-- C3 counterexample: in a 3-buffer run where the write of `out_1.dat`
fails, the trace — which contains every log line the program emits — is
identical to the trace of the fully-successful run, so the failure is never
reported; the run still stops normally, loses exactly `out_1.dat`, and both
later artifacts of buffer 2 are recorded.  This refutes the claim that the
failure is logged. -/
theorem writeFailureNotLogged_cex :
    (writedataRun ⟨4, 3, "out"⟩ oracleW2 wFailC3).1
      = (writedataRun ⟨4, 3, "out"⟩ oracleW2 noWFail).1 ∧
    (writedataRun ⟨4, 3, "out"⟩ oracleW2 wFailC3).2.1 = Outcome.stopped ∧
    (writedataRun ⟨4, 3, "out"⟩ oracleW2 wFailC3).2.2
      = ["out_0.hdr", "out_0.dat", "out_1.hdr", "out_2.hdr", "out_2.dat"] := by
  decide

/-- C4 counterexample: with `total_buffers` absent from the configuration
document, decoding succeeds (Go leaves the zero value), no `ConfigError` is
raised, and the scan IS started: the run arms the device, issues the single
`StartScan`, performs no reads, and completes normally.  This refutes the
claim that such a configuration is rejected before arming. -/
theorem absentTotalNotRejected_cex :
    (writedataMain ⟨some 256, none, some "out"⟩ errOracle noWFail).1.countP
        isStartScan = 1 ∧
    (writedataMain ⟨some 256, none, some "out"⟩ errOracle noWFail).1.countP
        isReadScan = 0 ∧
    (writedataMain ⟨some 256, none, some "out"⟩ errOracle noWFail).2.1
      = Outcome.stopped := by
  decide

/-- C4 (amended): an absent, zero, or negative total buffer count is not
rejected — no validation exists: the document decodes with the Go zero value
for absent fields, the arming sequence and the single start-scan are still
executed, and the acquisition loop merely performs zero read iterations,
ending in the stopped state. -/
theorem nonpositiveTotalNoScan (doc : ConfigDoc)
    (oracle : Nat → Except String (List Nat)) (wFail : String → Bool)
    (h : doc.totalBuffers.getD 0 ≤ 0) :
    (writedataMain doc oracle wFail).1.countP isStartScan = 1 ∧
    (writedataMain doc oracle wFail).1.countP isReadScan = 0 ∧
    (writedataMain doc oracle wFail).2.1 = Outcome.stopped := by
  have h0 : (decodeWritedata doc).totalBuffers.toNat = 0 := by
    simp only [decodeWritedata]
    omega
  refine ⟨?_, ?_, ?_⟩ <;>
    simp [writedataMain, writedataRun, h0, scanLoop, tailEvs,
      isStartScan, isReadScan, List.countP_cons]

/-- Witness for `nonpositiveTotalNoScan`: a document with
`total_buffers = -3` still arms, starts the scan, reads nothing and stops. -/
theorem nonpositiveTotalNoScan_witness :
    (writedataMain ⟨some 256, some (-3), some "x"⟩ errOracle noWFail).1.countP
        isStartScan = 1 ∧
    (writedataMain ⟨some 256, some (-3), some "x"⟩ errOracle noWFail).1.countP
        isReadScan = 0 ∧
    (writedataMain ⟨some 256, some (-3), some "x"⟩ errOracle noWFail).2.1
      = Outcome.stopped :=
  nonpositiveTotalNoScan ⟨some 256, some (-3), some "x"⟩ errOracle noWFail
    (by decide)

/-- C6 counterexample: with only channel 0 enabled, the dashboard snapshot is
not the converted first samples of the (first 6) enabled channels: the code
shows six values — the first six words of the buffer, slot `i` converted with
`ai.Channels[i]`'s range regardless of enablement — while the spec-described
view has a single entry (channel 0's first sample).  Evaluated at a 12-byte
buffer of one enabled channel, the two disagree. -/
theorem liveViewNotEnabledChannels_cex :
    (liveView calTwo chansOneEnabled dataSixWords).map List.length
      = Except.ok 6 ∧
    (specLiveView calTwo chansOneEnabled dataSixWords).length = 1 ∧
    liveView calTwo chansOneEnabled dataSixWords
      ≠ Except.ok (specLiveView calTwo chansOneEnabled dataSixWords) := by
  have h6 : (liveView calTwo chansOneEnabled dataSixWords).map List.length
      = Except.ok 6 := by decide
  have h1 : (specLiveView calTwo chansOneEnabled dataSixWords).length = 1 := by
    decide
  refine ⟨h6, h1, ?_⟩
  intro h
  rw [h] at h6
  simp only [Except.map, Except.ok.injEq] at h6
  rw [h1] at h6
  exact absurd h6 (by decide)

/-- C6 (amended): the live view reads the first six 16-bit words of the
buffer and converts word `i` with `ai.Channels[i]`'s range, regardless of
which channels are enabled; this equals the spec's
first-sample-of-the-first-6-enabled-channels exactly when channels 0..5 are
all enabled (and the buffer holds at least 12 bytes). -/
theorem liveViewMatchesSpecWhenFirstSixEnabled
    (cal : Nat → Option Cal) (data : List Nat)
    (c0 c1 c2 c3 c4 c5 c6 c7 : DChannel)
    (h0 : c0.enabled = true) (h1 : c1.enabled = true) (h2 : c2.enabled = true)
    (h3 : c3.enabled = true) (h4 : c4.enabled = true) (h5 : c5.enabled = true)
    (hlen : 12 ≤ data.length) :
    liveView cal [c0, c1, c2, c3, c4, c5, c6, c7] data
      = Except.ok (specLiveView cal [c0, c1, c2, c3, c4, c5, c6, c7] data) := by
  have g0 : goSlice data 0 2 = Except.ok ((data.drop 0).take 2) := by
    simp [goSlice, show (2 : Nat) ≤ data.length from by omega]
  have g1 : goSlice data 2 4 = Except.ok ((data.drop 2).take 2) := by
    simp [goSlice, show (4 : Nat) ≤ data.length from by omega]
  have g2 : goSlice data 4 6 = Except.ok ((data.drop 4).take 2) := by
    simp [goSlice, show (6 : Nat) ≤ data.length from by omega]
  have g3 : goSlice data 6 8 = Except.ok ((data.drop 6).take 2) := by
    simp [goSlice, show (8 : Nat) ≤ data.length from by omega]
  have g4 : goSlice data 8 10 = Except.ok ((data.drop 8).take 2) := by
    simp [goSlice, show (10 : Nat) ≤ data.length from by omega]
  have g5 : goSlice data 10 12 = Except.ok ((data.drop 10).take 2) := by
    simp [goSlice, show (12 : Nat) ≤ data.length from by omega]
  have hft : ((([c0, c1, c2, c3, c4, c5, c6, c7] : List DChannel).filter
      fun c => c.enabled).take 6) = [c0, c1, c2, c3, c4, c5] := by
    cases hc6 : c6.enabled <;> cases hc7 : c7.enabled <;>
      simp [List.filter, h0, h1, h2, h3, h4, h5, hc6, hc7]
  simp only [liveView, liveViewGo]
  norm_num [g0, g1, g2, g3, g4, g5, specLiveView, hft, specEntries, specEntry,
    List.getD]

/-- Witness for `liveViewMatchesSpecWhenFirstSixEnabled`: with the first six
channels enabled and a 12-byte buffer, the dashboard snapshot coincides with
the spec-described live view. -/
theorem liveViewMatchesSpec_witness :
    liveView calTwo chansAllEnabled dataSixWords
      = Except.ok (specLiveView calTwo chansAllEnabled dataSixWords) :=
  liveViewMatchesSpecWhenFirstSixEnabled calTwo dataSixWords
    { description := "c0", enabled := true, range := 0 }
    { description := "c1", enabled := true, range := 1 }
    { description := "c2", enabled := true, range := 0 }
    { description := "c3", enabled := true, range := 0 }
    { description := "c4", enabled := true, range := 1 }
    { description := "c5", enabled := true, range := 0 }
    { description := "c6", enabled := false, range := 0 }
    { description := "c7", enabled := true, range := 0 }
    rfl rfl rfl rfl rfl rfl (by decide)

/-- C7 counterexample: a 4-byte buffer satisfying the §3 length invariant
(2 scans × 1 enabled channel × 2 bytes) drives the display slicing past the
end of the buffer (the slice for slot 2 panics), and a 13-byte buffer that
violates the invariant for every (scans, channels) pair is not rejected:
conversion proceeds and a snapshot is produced.  This refutes both the
"never reads past the end" conclusion and the "rejected before conversion"
premise. -/
theorem lengthInvariantNotChecked_cex :
    dataFourBytes.length = 2 * 1 * 2 ∧
    liveView calTwo chansOneEnabled dataFourBytes
      = Except.error "slice bounds out of range" ∧
    (¬ ∃ scans nchan, dataThirteen.length = scans * nchan * 2) ∧
    exceptIsOk (liveView calTwo chansOneEnabled dataThirteen) = true := by
  refine ⟨by decide, by decide, ?_, by decide⟩
  rintro ⟨s, n, h⟩
  have hlen : dataThirteen.length = 13 := by decide
  rw [hlen] at h
  omega

/-- C7 (amended): the entry point performs no buffer-length validation: the
display slicing reads bytes 0..11 unconditionally, so the live view succeeds
on every buffer of at least 12 bytes — whether or not the §3 length
invariant holds — and reads past the end of (panics on) every shorter
buffer, including invariant-satisfying ones. -/
theorem liveViewBounds (cal : Nat → Option Cal) (channels : List DChannel)
    (data : List Nat) :
    exceptIsOk (liveView cal channels data) = decide (12 ≤ data.length) := by
  rcases Nat.lt_or_ge data.length 12 with hlt | hge
  · rw [decide_eq_false (by omega)]
    simp only [liveView, liveViewGo, goSlice]
    norm_num
    split_ifs <;> first
      | omega
      | simp [exceptIsOk]
  · rw [decide_eq_true hge]
    simp only [liveView, liveViewGo, goSlice]
    norm_num
    simp [show (2 : Nat) ≤ data.length from by omega,
      show (4 : Nat) ≤ data.length from by omega,
      show (6 : Nat) ≤ data.length from by omega,
      show (8 : Nat) ≤ data.length from by omega,
      show (10 : Nat) ≤ data.length from by omega,
      show (12 : Nat) ≤ data.length from by omega, exceptIsOk]

/-- C9 counterexample: when the serial read fails having returned the empty
string (the Go zero value of a failed read), src/main.go displays the empty
string — not the placeholder — so the claim fails for that entry point; the
dashboard entry points do default to the placeholder. -/
theorem serialDefaultNotUniversal_cex :
    serialShownMain ("", false) = some "" ∧
    serialShownMain ("", false) ≠ some "Unknown" ∧
    serialShownDashboard ("", false) = some "Unknown" := by
  decide

/-- C9 (amended): no entry point aborts startup on a failed serial-number
read — each continues and displays a string — but only the dashboard entry
points substitute the placeholder on failure; src/main.go and
src/unnamed/part_001 ignore the error and display the returned value
unchanged. -/
theorem serialSoftFail (v : String) (ok : Bool) :
    (serialShownDashboard (v, ok)).isSome = true ∧
    (serialShownMain (v, ok)).isSome = true ∧
    serialShownDashboard (v, false) = some "Unknown" ∧
    serialShownMain (v, false) = some v :=
  ⟨rfl, rfl, rfl, rfl⟩

/-- The inner buffer loop of the multi-file recorder emits no RTC channel
events, on either its success or its failure path. -/
theorem mfInner_no_rtc (oracle : Nat → Nat → Except String (List Nat))
    (f : Nat) : ∀ n b, (mfInner oracle f b n).1.countP isMRecv = 0 ∧
      (mfInner oracle f b n).1.countP isMSpawn = 0 := by
  intro n
  induction n with
  | zero => intro b; exact ⟨rfl, rfl⟩
  | succ m ih =>
    intro b
    cases horacle : oracle f b with
    | error e => simp [mfInner, horacle, isMRecv, isMSpawn, List.countP_cons]
    | ok dd =>
      have ihb := ih (b + 1)
      constructor <;>
        simp [mfInner, horacle, isMRecv, isMSpawn, List.countP_cons,
          ihb.1, ihb.2]

/-- When every read succeeds, the inner buffer loop completes. -/
theorem mfInner_completes (oracle : Nat → Nat → Except String (List Nat))
    (f : Nat) (hok : ∀ b, ∃ dd, oracle f b = Except.ok dd) :
    ∀ n b, (mfInner oracle f b n).2 = true := by
  intro n
  induction n with
  | zero => intro b; rfl
  | succ m ih =>
    intro b
    obtain ⟨dd, hd⟩ := hok b
    simp [mfInner, hd, ih (b + 1)]

/-- When every read succeeds, the multi-file outer loop performs exactly one
RTC spawn and exactly one RTC receive per file. -/
theorem mfOuter_counts (oracle : Nat → Nat → Except String (List Nat))
    (bpf : Nat) (hok : ∀ f b, ∃ dd, oracle f b = Except.ok dd) :
    ∀ n f, (mfOuter oracle bpf f n).countP isMRecv = n ∧
      (mfOuter oracle bpf f n).countP isMSpawn = n := by
  intro n
  induction n with
  | zero => intro f; exact ⟨rfl, rfl⟩
  | succ m ih =>
    intro f
    have hc := mfInner_completes oracle f (hok f) bpf 0
    have hr := mfInner_no_rtc oracle f bpf 0
    have ihm := ih (f + 1)
    constructor <;>
      simp [mfOuter, hc, isMRecv, isMSpawn, List.countP_cons,
        List.countP_append, hr.1, hr.2, ihm.1, ihm.2]

/-- Each list element being at least one bounds the sum below by the
length. -/
theorem length_le_sum (l : List Nat) (h : ∀ x ∈ l, 1 ≤ x) :
    l.length ≤ l.sum := by
  induction l with
  | nil => simp
  | cons a t ih =>
    have ha := h a (List.mem_cons_self a t)
    have ht := ih fun x hx => h x (List.mem_cons_of_mem a hx)
    simp only [List.length_cons, List.sum_cons]
    omega

/-- If one term of the send total is 2 and all terms are at least 1, the
total exceeds the number of invocations. -/
theorem rtcSendTotal_exceeds (hw : Nat → String × Bool) (f : Nat)
    (h2 : (getRTCTimeSends (hw f)).length = 2) :
    ∀ numFiles, f < numFiles → numFiles + 1 ≤ rtcSendTotal hw numFiles := by
  have hone : ∀ g : Nat, 1 ≤ (getRTCTimeSends (hw g)).length := by
    intro g
    cases hg : (hw g).2 <;> simp [getRTCTimeSends, hg]
  intro numFiles
  induction numFiles with
  | zero => omega
  | succ m ih =>
    intro hf
    rw [rtcSendTotal, List.range_succ]
    simp only [List.map_append, List.sum_append, List.map_cons, List.map_nil,
      List.sum_cons, List.sum_nil]
    rcases Nat.lt_or_ge f m with hfm | hfm
    · have hm := ih hfm
      rw [rtcSendTotal] at hm
      have h1m := hone m
      omega
    · have hfe : f = m := by omega
      subst hfe
      have hsum : f ≤ ((List.range f).map fun g =>
          (getRTCTimeSends (hw g)).length).sum := by
        have hls := length_le_sum ((List.range f).map fun g =>
          (getRTCTimeSends (hw g)).length) (by
            intro x hx
            rcases List.mem_map.mp hx with ⟨g, _, rfl⟩
            exact hone g)
        simpa using hls
      omega

/-- C10: when the external hwclock command fails, `getRTCTime` sends the
placeholder on its channel and then unconditionally performs a second send
of the captured output — two sends for that invocation — while the
multi-file main loop spawns it once and receives exactly one value per file,
so the total sends exceed the total receives. -/
theorem rtcDoubleSend (out : String) (hw : Nat → String × Bool)
    (oracle : Nat → Nat → Except String (List Nat)) (bpf numFiles f : Nat)
    (hf : f < numFiles) (hfail : hw f = (out, false))
    (hok : ∀ g b, ∃ dd, oracle g b = Except.ok dd) :
    getRTCTimeSends (hw f) = ["bad hwclock call", out] ∧
    (getRTCTimeSends (hw f)).length = 2 ∧
    (mfRun oracle bpf numFiles).countP isMRecv = numFiles ∧
    (mfRun oracle bpf numFiles).countP isMSpawn = numFiles ∧
    numFiles + 1 ≤ rtcSendTotal hw numFiles := by
  have hsend : getRTCTimeSends (hw f) = ["bad hwclock call", out] := by
    rw [hfail]
    simp [getRTCTimeSends]
  have hcounts := mfOuter_counts oracle bpf hok numFiles 0
  exact ⟨hsend, by rw [hsend]; rfl, hcounts.1, hcounts.2,
    rtcSendTotal_exceeds hw f (by rw [hsend]; rfl) numFiles hf⟩

/-- Witness for `rtcDoubleSend`: two files, one buffer each, hwclock failing
on the first invocation: that invocation sends twice, the loop spawns twice
and receives twice, and three sends face two receives. -/
theorem rtcDoubleSend_witness :
    getRTCTimeSends (hwFirstFails 0) = ["bad hwclock call", ""] ∧
    (getRTCTimeSends (hwFirstFails 0)).length = 2 ∧
    (mfRun mfOracleOk 1 2).countP isMRecv = 2 ∧
    (mfRun mfOracleOk 1 2).countP isMSpawn = 2 ∧
    2 + 1 ≤ rtcSendTotal hwFirstFails 2 :=
  rtcDoubleSend "" hwFirstFails mfOracleOk 1 2 0 (by decide) (by decide)
    (fun g b => ⟨[0, 0], rfl⟩)

end Usb1608
